import Mathlib

/-!
Shallow embedding of the nodetracer trace/span lifecycle engine.

The Python source files embedded here:
  * `src/nodetracer/models/node.py`        — `NodeStatus`, `Node`
  * `src/nodetracer/models/edge.py`        — `EdgeType`, `Edge`
  * `src/nodetracer/models/trace_graph.py` — `TraceGraph` and its operations
  * `src/nodetracer/serializers/json.py`   — `trace_to_json` / `trace_from_json`
  * `src/logtracer/core/span.py`           — `Span` data capture, status and
    lifecycle bookkeeping (`safe_value`, `truncate_if_needed`, `set_status`,
    `link`, `__enter__`, `__exit__`)
  * `src/logtracer/core/tracer.py`         — `TraceContext` enter/exit and
    `_finalize`
  * `src/nodetracer/core/hooks.py`         — the `TracerHook` protocol

Modelling conventions: machine identities (`uuid4().hex`) are drawn from a
fresh-id counter and stored as `Nat`; timestamps (`datetime.now(UTC)`) are
ticks of a logical clock (`Nat`); Python `dict`s are association lists with
insert-or-overwrite-in-place semantics, matching insertion-ordered `dict`;
a raised exception is an `Option String` paired with the state as it stood
at the raise point.
-/

namespace Nodetracer

/-- `NodeStatus` enumeration from `models/node.py`. -/
inductive NodeStatus
  | pending
  | running
  | completed
  | failed
  | cancelled
deriving DecidableEq, Repr

/-- `EdgeType` enumeration from `models/edge.py`. -/
inductive EdgeType
  | caused_by
  | data_flow
  | branched_from
  | retry_of
  | fallback_of
deriving DecidableEq, Repr

/-- A Python value as seen by `_safe_value` in `span.py`: JSON-safe scalars
pass through; a list/dict or other object either serializes (`pjson`) or
makes `json.dumps` raise (`pnonjson`); `pnonjson r` carries `repr(value)`. -/
inductive PyValue
  | pstr (s : String)
  | pint (n : Int)
  | pbool (b : Bool)
  | pnone
  | pjson (r : String)
  | pnonjson (r : String)
deriving DecidableEq, Repr

/-- Key lookup in an association list (Python `dict.get` / `in`). -/
def alookup {α β : Type} [DecidableEq α] : List (α × β) → α → Option β
  | [], _ => none
  | kv :: tl, k => if kv.1 = k then some kv.2 else alookup tl k

/-- Insert-or-overwrite into an insertion-ordered association list, matching
Python `dict.__setitem__`: an existing key keeps its position, a new key is
appended. -/
def dictInsert {α β : Type} [DecidableEq α] (m : List (α × β)) (k : α) (v : β) :
    List (α × β) :=
  if (alookup m k).isSome then
    m.map (fun kv => if kv.1 = k then (k, v) else kv)
  else
    m ++ [(k, v)]

/-- Python `dict.update`: insert each pair in order. -/
def dictUpdate {α β : Type} [DecidableEq α] (m : List (α × β))
    (kvs : List (α × β)) : List (α × β) :=
  kvs.foldl (fun acc kv => dictInsert acc kv.1 kv.2) m

/-- `Node` from `models/node.py`.  `id` is the `uuid4().hex` identity,
timestamps are logical-clock ticks. -/
structure Node where
  id : Nat
  sequence_number : Nat
  name : String
  node_type : String
  status : NodeStatus := .pending
  parent_id : Option Nat := none
  depth : Nat := 0
  start_time : Option Nat := none
  end_time : Option Nat := none
  input_data : List (String × PyValue) := []
  output_data : List (String × PyValue) := []
  annotations : List String := []
  metadata : List (String × PyValue) := []
  error : Option String := none
  error_type : Option String := none
  error_traceback : Option String := none
deriving DecidableEq, Repr

/-- `Edge` from `models/edge.py`. -/
structure Edge where
  source_id : Nat
  target_id : Nat
  edge_type : EdgeType := .caused_by
  label : String := ""
  metadata : List (String × PyValue) := []
deriving DecidableEq, Repr

/-- `TraceGraph` from `models/trace_graph.py`.  `sequence_counter` is the
pydantic `PrivateAttr` `_sequence_counter` (default 0, never serialized). -/
structure TraceGraph where
  schema_version : String := "0.1.0"
  trace_id : Nat
  name : String := ""
  nodes : List (Nat × Node) := []
  edges : List Edge := []
  start_time : Option Nat := none
  end_time : Option Nat := none
  metadata : List (String × PyValue) := []
  sequence_counter : Nat := 0
deriving DecidableEq, Repr

/-- `TraceGraph.next_sequence_number`: return the counter, then increment. -/
def TraceGraph.next_sequence_number (g : TraceGraph) : Nat × TraceGraph :=
  (g.sequence_counter, { g with sequence_counter := g.sequence_counter + 1 })

/-- Whether a node id is present in `g.nodes` (Python `id in self.nodes`). -/
def TraceGraph.containsNode (g : TraceGraph) (nid : Nat) : Bool :=
  (alookup g.nodes nid).isSome

/-- `TraceGraph.add_node`: `self.nodes[node.id] = node`. -/
def TraceGraph.add_node (g : TraceGraph) (n : Node) : TraceGraph :=
  { g with nodes := dictInsert g.nodes n.id n }

/-- `TraceGraph.add_edge`: raise `ValueError` if either endpoint is not a
registered node (leaving the graph untouched), otherwise append the edge.
The raised message, if any, is returned alongside the (post-)state. -/
def TraceGraph.add_edge (g : TraceGraph) (e : Edge) : TraceGraph × Option String :=
  if ¬ g.containsNode e.source_id then
    (g, some ("Unknown edge source node id: " ++ toString e.source_id))
  else if ¬ g.containsNode e.target_id then
    (g, some ("Unknown edge target node id: " ++ toString e.target_id))
  else
    ({ g with edges := g.edges ++ [e] }, none)

/-- `TraceGraph.validate_edge_references` (pydantic `model_validator`):
the first edge whose endpoint is unknown yields a `ValueError` message. -/
def TraceGraph.validate_edge_references (g : TraceGraph) : Option String :=
  g.edges.findSome? fun e =>
    if ¬ g.containsNode e.source_id then
      some ("Edge source_id not found in nodes: " ++ toString e.source_id)
    else if ¬ g.containsNode e.target_id then
      some ("Edge target_id not found in nodes: " ++ toString e.target_id)
    else
      none

/-- The wire form produced by `trace_to_json` (`model_dump_json`): all public
fields plus the computed `duration_ms`; the private sequence counter is not
part of the dump. -/
structure WireGraph where
  schema_version : String
  trace_id : Nat
  name : String
  nodes : List (Nat × Node)
  edges : List Edge
  start_time : Option Nat
  end_time : Option Nat
  metadata : List (String × PyValue)
  duration_ms : Option Nat
deriving DecidableEq, Repr

/-- Computed `TraceGraph.duration_ms` (null unless both timestamps set). -/
def TraceGraph.duration_ms (g : TraceGraph) : Option Nat :=
  match g.start_time, g.end_time with
  | some s, some e => some (e - s)
  | _, _ => none

/-- `trace_to_json` from `serializers/json.py` (`model_dump_json`). -/
def trace_to_json (g : TraceGraph) : WireGraph :=
  { schema_version := g.schema_version
    trace_id := g.trace_id
    name := g.name
    nodes := g.nodes
    edges := g.edges
    start_time := g.start_time
    end_time := g.end_time
    metadata := g.metadata
    duration_ms := g.duration_ms }

/-- The graph `model_validate_json` reconstructs from the wire fields: the
private `_sequence_counter` is not on the wire and takes its default 0. -/
def rebuiltGraph (w : WireGraph) : TraceGraph :=
  { schema_version := w.schema_version
    trace_id := w.trace_id
    name := w.name
    nodes := w.nodes
    edges := w.edges
    start_time := w.start_time
    end_time := w.end_time
    metadata := w.metadata
    sequence_counter := 0 }

/-- `trace_from_json` (`model_validate_json`): rebuild the graph from the
public fields, then run `validate_edge_references`; a validator error
becomes a `NodetracerLoadError`. -/
def trace_from_json (w : WireGraph) : Except String TraceGraph :=
  match (rebuiltGraph w).validate_edge_references with
  | some msg => .error ("Failed to parse trace JSON: " ++ msg)
  | none => .ok (rebuiltGraph w)

/-- `TracerConfig` from `core/tracer_config.py` (the fields the span data
path reads). -/
structure TracerConfig where
  capture_level : String := "full"
  max_output_size : Option Int := none
  max_input_size : Option Int := none
deriving DecidableEq, Repr

/-- `_safe_value` from `span.py`: JSON-representable values pass through;
a value `json.dumps` rejects becomes `f"{value!r} [NON-SERIALIZABLE]"`. -/
def safe_value : PyValue → PyValue
  | .pnonjson r => .pstr (r ++ " [NON-SERIALIZABLE]")
  | v => v

/-- `_truncate_if_needed` from `span.py`: with a positive limit, a string
longer than the limit is cut to its first `limit` characters and suffixed
with `... [TRUNCATED: original_size=N]`; everything else passes through. -/
def truncate_if_needed (value : PyValue) (limit : Option Int) : PyValue :=
  match limit with
  | none => value
  | some l =>
    if l ≤ 0 then value
    else
      match value with
      | .pstr s =>
        if (s.length : Int) ≤ l then .pstr s
        else .pstr (s.take l.toNat ++ "... [TRUNCATED: original_size=" ++
          toString s.length ++ "]")
      | v => v

/-- The data-capture view of a `Span` (`span.py`): the node record it owns
plus its config.  The lifecycle view lives in the interpreter below. -/
structure Span where
  node_record : Node
  config : TracerConfig
deriving DecidableEq, Repr

/-- `Span.input`: merge sanitized, input-limit-truncated values into
`node_record.input_data`. -/
def Span.input (sp : Span) (kvs : List (String × PyValue)) : Span :=
  { sp with node_record := { sp.node_record with
      input_data := dictUpdate sp.node_record.input_data
        (kvs.map fun kv =>
          (kv.1, truncate_if_needed (safe_value kv.2) sp.config.max_input_size)) } }

/-- `Span.output`: merge sanitized, output-limit-truncated values into
`node_record.output_data`. -/
def Span.output (sp : Span) (kvs : List (String × PyValue)) : Span :=
  { sp with node_record := { sp.node_record with
      output_data := dictUpdate sp.node_record.output_data
        (kvs.map fun kv =>
          (kv.1, truncate_if_needed (safe_value kv.2) sp.config.max_output_size)) } }

/-- `Span.link`: build an `Edge` from this span's node to the target span's
node — `edge_type` defaults to `EdgeType.DATA_FLOW` in the source — and hand
it to `TraceGraph.add_edge`. -/
def Span.link (g : TraceGraph) (selfId targetId : Nat)
    (edge_type : EdgeType := .data_flow) : TraceGraph × Option String :=
  g.add_edge { source_id := selfId, target_id := targetId, edge_type := edge_type }

/-! ### The span status machine

`span.py` keeps one `_entered` flag per span next to the node's status.
`__enter__` is a no-op on an already-entered span, and otherwise sets
RUNNING; `__exit__` without an error promotes RUNNING to COMPLETED (any
other status is left); `__exit__` with an error sets FAILED unconditionally;
both clear `_entered`.  `set_status` assigns the given status with no
guard. -/

/-- The status-relevant state of one span: node status plus `_entered`. -/
structure SpanStatusState where
  status : NodeStatus
  entered : Bool
deriving DecidableEq, Repr

/-- The status-touching operations of `span.py`. -/
inductive SpanOp
  | enter
  | exit (failed : Bool)
  | set_status (st : NodeStatus)
deriving DecidableEq, Repr

/-- One operation's effect on the status state, as implemented by
`Span.__enter__`, `Span.__exit__` and `Span.set_status`. -/
def applyOp (s : SpanStatusState) : SpanOp → SpanStatusState
  | .enter => if s.entered then s else { status := .running, entered := true }
  | .exit false =>
    { status := if s.status = .running then .completed else s.status
      entered := false }
  | .exit true => { status := .failed, entered := false }
  | .set_status st => { s with status := st }

/-- A freshly constructed span: `status=PENDING`, not entered. -/
def freshSpanState : SpanStatusState := { status := .pending, entered := false }

/-- The sequence of statuses a span passes through under a list of
operations (the initial status included). -/
def statusTrajectory (s : SpanStatusState) : List SpanOp → List NodeStatus
  | [] => [s.status]
  | op :: ops => s.status :: statusTrajectory (applyOp s op) ops

/-- The transition relation asserted by the claim: a status either stays
put, or moves pending→running, or moves running→{completed, failed,
cancelled}. -/
def claimAllowedStep : NodeStatus → NodeStatus → Bool
  | a, b =>
    a = b ∨ (a = .pending ∧ b = .running) ∨
      (a = .running ∧ (b = .completed ∨ b = .failed ∨ b = .cancelled))

/-- All consecutive pairs of a trajectory satisfy `claimAllowedStep`. -/
def trajectoryAllowed : List NodeStatus → Bool
  | [] => true
  | [_] => true
  | a :: b :: rest => claimAllowedStep a b && trajectoryAllowed (b :: rest)

/-! ### Span construction against a shared graph (`Span.__init__`)

Construction draws one `sequence_number` from the owning graph's counter
and allocates the node record; it does not register the node. -/

/-- `Span.__init__`'s effect on the shared graph and the node record it
allocates: `uuid` is the fresh machine identity, `parent` the ambient (or
explicit) parent's `(id, depth)` pair. -/
def spanConstructNode (g : TraceGraph) (uuid : Nat) (parent : Option (Nat × Nat))
    (name node_type : String) : Node × TraceGraph :=
  let (seq, g') := g.next_sequence_number
  ({ id := uuid
     sequence_number := seq
     name := name
     node_type := node_type
     parent_id := parent.map (·.1)
     depth := match parent with | some p => p.2 + 1 | none => 0 }, g')

/-- Constructing one span per name against one shared graph, in order;
returns the allocated node records and the final graph. -/
def constructSpans (g : TraceGraph) (uuid : Nat) (parent : Option (Nat × Nat)) :
    List String → List Node × TraceGraph
  | [] => ([], g)
  | name :: rest =>
    let (n, g') := spanConstructNode g uuid parent name "custom"
    let (ns, g'') := constructSpans g' (uuid + 1) parent rest
    (n :: ns, g'')

/-! ### The lifecycle interpreter

Executes a whole trace scope the way `TraceContext` and `Span` do: ambient
current-node stack (`core/context.py` contextvars with push/reset tokens),
the shared `TraceGraph`, a logical clock for `datetime.now(UTC)`, a fresh-id
counter for `uuid4().hex`, and an event log recording every hook callback
invocation plus the storage-save attempt.

Hook dispatch from span enter/exit is modelled from the spec: the `Span`
variant that receives the Tracer's hook list (`TraceContext` passes
`hooks=self._hooks` to `Span`) is not in the snapshot, so `on_node_started`
/ `on_node_completed` / `on_node_failed` firing follows §4.2/§4.4 of the
spec and the `TracerHook` protocol of `core/hooks.py`.  Everything else
(status writes, timestamps, graph registration, implicit parent edge,
ambient push/reset, error capture, `_finalize`) follows the source. -/

/-- An exception raised by host code inside a span's scope: message and
class name. -/
structure Err where
  msg : String
  ty : String
deriving DecidableEq, Repr

/-- One observable event: a hook callback invocation (tagged with the index
of the hook in the Tracer's hook list and the affected node id) or the
storage-save attempt made by `TraceContext._finalize`. -/
inductive Event
  | node_started (hook nid : Nat)
  | node_completed (hook nid : Nat)
  | node_failed (hook nid : Nat)
  | save_attempt (ok : Bool)
  | trace_completed (hook : Nat)
deriving DecidableEq, Repr

/-- The state threaded through a trace scope's execution. -/
structure TraceState where
  graph : TraceGraph
  ambient : List (Option (Nat × Nat))
  clock : Nat
  next_id : Nat
  nhooks : Nat
  store : List TraceGraph
  log : List Event
deriving Repr

/-- `datetime.now(UTC)`: read the clock, advance it. -/
def now (s : TraceState) : Nat × TraceState :=
  (s.clock, { s with clock := s.clock + 1 })

/-- Fire one lifecycle event on every registered hook, in hook order
(modelled from the spec's hook-dispatcher loop). -/
def fireAll (s : TraceState) (f : Nat → Event) : TraceState :=
  { s with log := s.log ++ (List.range s.nhooks).map f }

/-- `get_current_node()`: the top of the ambient stack, as the entered
parent's `(id, depth)` pair. -/
def currentNode (s : TraceState) : Option (Nat × Nat) :=
  s.ambient.head?.join

/-- `Span.__init__` inside a running scope: draw a sequence number from the
shared counter, allocate the node record with parent/depth from the ambient
current node, consume a fresh machine id. -/
def spanConstruct (s : TraceState) (name node_type : String) :
    Node × TraceState :=
  let (n, g') := spanConstructNode s.graph s.next_id (currentNode s) name node_type
  (n, { s with graph := g', next_id := s.next_id + 1 })

/-- `Span.__enter__`: status RUNNING, stamp `start_time`, register the node,
add the implicit parent→self causal edge when a parent exists, push the node
as the ambient current node, fire `on_node_started` on every hook (the hook
firing is modelled from the spec). -/
def spanEnter (n : Node) (s : TraceState) : TraceState :=
  let (t, s1) := now s
  let entered : Node := { n with status := .running, start_time := some t }
  let g1 := s1.graph.add_node entered
  let g2 :=
    match n.parent_id with
    | some pid => (g1.add_edge { source_id := pid, target_id := n.id }).1
    | none => g1
  let s2 := { s1 with graph := g2, ambient := some (n.id, n.depth) :: s1.ambient }
  fireAll s2 (fun i => .node_started i n.id)

/-- Rewrite one node record in place (the Python span and the graph share
the mutable `Node` object). -/
def TraceGraph.updateNode (g : TraceGraph) (nid : Nat) (f : Node → Node) :
    TraceGraph :=
  { g with nodes := g.nodes.map fun kv => if kv.1 = nid then (kv.1, f kv.2) else kv }

/-- The node-record rewrite done by `Span.__exit__`: without an error a
RUNNING node becomes COMPLETED (any other status is left); with an error the
status becomes FAILED and message/type/traceback are captured; `end_time` is
stamped either way. -/
def exitRecord (res : Option Err) (t : Nat) (nd : Node) : Node :=
  match res with
  | none =>
    { nd with
      status := if nd.status = .running then .completed else nd.status
      end_time := some t }
  | some e =>
    { nd with
      status := .failed
      error := some e.msg
      error_type := some e.ty
      error_traceback := some ("Traceback: " ++ e.ty ++ ": " ++ e.msg)
      end_time := some t }

/-- `Span.__exit__`: finalize the node record, restore the ambient current
node, fire `on_node_completed` or `on_node_failed` on every hook (the hook
firing is modelled from the spec).  The method returns `False`, so the
caller's error — threaded separately by `runBody` — keeps propagating. -/
def spanExit (nid : Nat) (res : Option Err) (s : TraceState) : TraceState :=
  let (t, s1) := now s
  let s2 := { s1 with
    graph := s1.graph.updateNode nid (exitRecord res t)
    ambient := s1.ambient.tail }
  match res with
  | none => fireAll s2 (fun i => .node_completed i nid)
  | some _ => fireAll s2 (fun i => .node_failed i nid)

/-- Host code running inside a trace scope: nothing, a raised exception,
sequencing, or a `with span:` block. -/
inductive Body
  | nop
  | raiseErr (msg ty : String)
  | seq (a b : Body)
  | span (name node_type : String) (body : Body)
deriving DecidableEq, Repr

/-- Execute host code: `seq` stops at the first raised exception; `span`
constructs and enters a child span, runs its body, and exits it with the
body's outcome — the exception, if any, propagates unchanged because
`__exit__` returns `False`. -/
def runBody : Body → TraceState → TraceState × Option Err
  | .nop, s => (s, none)
  | .raiseErr m ty, s => (s, some { msg := m, ty := ty })
  | .seq a b, s =>
    match runBody a s with
    | (s', none) => runBody b s'
    | (s', some e) => (s', some e)
  | .span name node_type body, s =>
    let (n, s1) := spanConstruct s name node_type
    let s2 := spanEnter n s1
    let (s3, res) := runBody body s2
    let s4 := spanExit n.id res s3
    (s4, res)

/-- `TraceContext._finalize`: stamp the graph's `end_time`, attempt
`storage.save` — a failing save raises inside the `try`, is caught, and
only warns — then call `on_trace_completed` on every hook. -/
def finalize (saveFails : Bool) (s : TraceState) : TraceState :=
  let (t, s1) := now s
  let g := { s1.graph with end_time := some t }
  let s2 := { s1 with
    graph := g
    store := if saveFails then s1.store else s1.store ++ [g]
    log := s1.log ++ [Event.save_attempt (!saveFails)] }
  { s2 with log := s2.log ++ (List.range s2.nhooks).map Event.trace_completed }

/-- The initial state of a trace scope: `TraceContext.__init__` builds the
graph with `start_time=now` and counter 0. -/
def initState (nhooks : Nat) (name : String) : TraceState :=
  { graph := { trace_id := 0, name := name, start_time := some 0 }
    ambient := []
    clock := 1
    next_id := 0
    nhooks := nhooks
    store := []
    log := [] }

/-- A whole trace scope, per `Tracer.trace` / `TraceContext`: construct the
root span (before any ambient push, as in `TraceContext.__init__`), push
ambient-node `None`, enter the root span, run the host body, exit the root
span with the body's outcome, restore the ambient context, finalize.  The
body's exception, if any, is re-raised to the host (`__exit__` returns
`False`). -/
def runTrace (nhooks : Nat) (name : String) (body : Body) (saveFails : Bool) :
    TraceState × Option Err :=
  let s0 := initState nhooks name
  let (root, s1) := spanConstruct s0 name "trace"
  let s2 := { s1 with ambient := none :: s1.ambient }
  let s3 := spanEnter root s2
  let (s4, res) := runBody body s3
  let s5 := spanExit root.id res s4
  let s6 := { s5 with ambient := s5.ambient.tail }
  (finalize saveFails s6, res)

/-- The id of the root span of `runTrace` (the first machine id drawn). -/
def rootId : Nat := 0

/-- Whether an event is a per-node hook event (as opposed to the save
attempt or the trace-completed dispatch, which only `_finalize` emits). -/
def isNodeEvent : Event → Bool
  | .node_started _ _ => true
  | .node_completed _ _ => true
  | .node_failed _ _ => true
  | .save_attempt _ => false
  | .trace_completed _ => false

/-- The per-state dispatch invariant: every registered node has had
`on_node_started` fired on every hook, and a node whose status is
completed (resp. failed) has had `on_node_completed` (resp.
`on_node_failed`) fired on every hook. -/
def HookInv (s : TraceState) : Prop :=
  ∀ kv ∈ s.graph.nodes,
    (∀ i < s.nhooks, Event.node_started i kv.1 ∈ s.log) ∧
    (kv.2.status = NodeStatus.completed →
      ∀ i < s.nhooks, Event.node_completed i kv.1 ∈ s.log) ∧
    (kv.2.status = NodeStatus.failed →
      ∀ i < s.nhooks, Event.node_failed i kv.1 ∈ s.log)

/-- Structural bookkeeping invariant: every registered node is keyed by its
own id, ids are below the fresh-id counter, and the registered nodes carry
the sequence numbers `0, 1, …, counter-1` in registration order. -/
def StateInv (s : TraceState) : Prop :=
  (∀ kv ∈ s.graph.nodes, kv.2.id = kv.1 ∧ kv.1 < s.next_id) ∧
  s.graph.nodes.map (fun kv => kv.2.sequence_number) =
    List.range s.graph.sequence_counter

/-- A concrete node record for exercising the data-capture API. -/
def demoNode : Node :=
  { id := 0, sequence_number := 0, name := "n", node_type := "custom" }

/-- The root span's node record as constructed by `TraceContext.__init__`. -/
def rootSpanNode (n : Nat) (nm : String) : Node :=
  (spanConstruct (initState n nm) nm "trace").1

/-- The state at which the host body starts running inside a trace scope:
after the root span is constructed, the ambient-node `None` is pushed, and
the root span is entered. -/
def traceStartState (n : Nat) (nm : String) : TraceState :=
  spanEnter (rootSpanNode n nm)
    { (spanConstruct (initState n nm) nm "trace").2 with
      ambient := none :: (spanConstruct (initState n nm) nm "trace").2.ambient }

/-- A two-node graph used to exercise `Span.link` on concrete input. -/
def linkDemoGraph : TraceGraph :=
  { trace_id := 0
    nodes := [(1, { id := 1, sequence_number := 0, name := "a", node_type := "custom" }),
              (2, { id := 2, sequence_number := 1, name := "b", node_type := "custom" })] }

/-- A one-node, one-edge graph with a node of sequence number 0, used to
exercise serialization round-trips on concrete input. -/
def roundtripDemoGraph : TraceGraph :=
  { trace_id := 7
    nodes := [(5, { id := 5, sequence_number := 0, name := "r", node_type := "trace"
                    status := NodeStatus.completed })]
    edges := [{ source_id := 5, target_id := 5 }]
    sequence_counter := 1 }

/-- A wire payload whose single edge names an unregistered node. -/
def badWireGraph : WireGraph :=
  { schema_version := "0.1.0"
    trace_id := 9
    name := ""
    nodes := []
    edges := [{ source_id := 3, target_id := 3 }]
    start_time := none
    end_time := none
    metadata := []
    duration_ms := none }

/-! ## Association-list helper lemmas -/

theorem alookup_append_right {α β : Type} [DecidableEq α] (m m' : List (α × β))
    (k : α) (h : alookup m k = none) : alookup (m ++ m') k = alookup m' k := by
  induction m with
  | nil => rfl
  | cons kv tl ih =>
    by_cases hk : kv.1 = k
    · simp [alookup, hk] at h
    · simp only [alookup, hk, if_false, List.cons_append] at h ⊢
      exact ih h

theorem alookup_map_overwrite {α β : Type} [DecidableEq α] (m : List (α × β)) (k : α) (v : β)
    (h : (alookup m k).isSome = true) :
    alookup (m.map fun kv => if kv.1 = k then (k, v) else kv) k = some v := by
  induction m with
  | nil => simp [alookup] at h
  | cons kv tl ih =>
    by_cases hk : kv.1 = k
    · simp [alookup, hk]
    · simp only [alookup, hk, if_false] at h
      simp only [List.map_cons, if_neg hk, alookup, hk, if_false]
      exact ih h

theorem lookup_dictInsert_self {α β : Type} [DecidableEq α] (m : List (α × β)) (k : α) (v : β) :
    alookup (dictInsert m k v) k = some v := by
  unfold dictInsert
  split
  case isTrue h => exact alookup_map_overwrite m k v h
  case isFalse h =>
    have h0 : alookup m k = none := by
      cases hm : alookup m k with
      | none => rfl
      | some b => rw [hm] at h; simp at h
    rw [alookup_append_right m [(k, v)] k h0]
    simp [alookup]

theorem alookup_map_ne {α β : Type} [DecidableEq α] (m : List (α × β)) (k k' : α) (v : β)
    (h : k' ≠ k) :
    alookup (m.map fun kv => if kv.1 = k then (k, v) else kv) k' = alookup m k' := by
  induction m with
  | nil => rfl
  | cons kv tl ih =>
    by_cases hk : kv.1 = k
    · have hne : k ≠ k' := Ne.symm h
      simp [alookup, hk, hne, ih]
    · by_cases hk2 : kv.1 = k' <;> simp [alookup, hk, hk2, h, ih]

theorem alookup_append_single_ne {α β : Type} [DecidableEq α] (m : List (α × β)) (k k' : α)
    (v : β) (h : k' ≠ k) : alookup (m ++ [(k, v)]) k' = alookup m k' := by
  induction m with
  | nil => simp [alookup, Ne.symm h]
  | cons kv tl ih =>
    by_cases hk2 : kv.1 = k' <;> simp [alookup, hk2, ih]

theorem lookup_dictInsert_ne {α β : Type} [DecidableEq α] (m : List (α × β)) (k k' : α) (v : β)
    (h : k' ≠ k) : alookup (dictInsert m k v) k' = alookup m k' := by
  unfold dictInsert
  split
  · exact alookup_map_ne m k k' v h
  · exact alookup_append_single_ne m k k' v h

theorem mem_dictInsert {α β : Type} [DecidableEq α] (m : List (α × β)) (k : α) (v : β)
    (a : α × β) (ha : a ∈ dictInsert m k v) : a ∈ m ∨ a = (k, v) := by
  unfold dictInsert at ha
  split at ha
  · rcases List.mem_map.mp ha with ⟨b, hb, hba⟩
    by_cases hk : b.1 = k
    · right; rw [if_pos hk] at hba; exact hba.symm
    · left; rw [if_neg hk] at hba; exact hba ▸ hb
  · rcases List.mem_append.mp ha with h | h
    · exact Or.inl h
    · right; simpa using h

theorem alookup_eq_none_of_keys_lt {β : Type} (m : List (Nat × β)) (u : Nat)
    (h : ∀ kv ∈ m, kv.1 < u) : alookup m u = none := by
  induction m with
  | nil => rfl
  | cons kv tl ih =>
    have h1 : kv.1 < u := h kv (List.mem_cons_self kv tl)
    have h2 : kv.1 ≠ u := Nat.ne_of_lt h1
    simp only [alookup, h2, if_false]
    exact ih fun x hx => h x (List.mem_cons_of_mem kv hx)

theorem dictInsert_append_of_keys_lt {β : Type} (m : List (Nat × β)) (u : Nat)
    (v : β) (h : ∀ kv ∈ m, kv.1 < u) : dictInsert m u v = m ++ [(u, v)] := by
  unfold dictInsert
  rw [alookup_eq_none_of_keys_lt m u h]
  rfl

theorem lookup_updateNode_self (g : TraceGraph) (nid : Nat) (f : Node → Node) :
    alookup (g.updateNode nid f).nodes nid = (alookup g.nodes nid).map f := by
  unfold TraceGraph.updateNode
  show alookup (g.nodes.map _) nid = _
  induction g.nodes with
  | nil => rfl
  | cons kv tl ih =>
    by_cases hk : kv.1 = nid
    · simp [alookup, hk]
    · simp [alookup, hk, ih]

theorem mem_updateNode (g : TraceGraph) (nid : Nat) (f : Node → Node)
    (a : Nat × Node) (ha : a ∈ (g.updateNode nid f).nodes) :
    ∃ b ∈ g.nodes, a = if b.1 = nid then (b.1, f b.2) else b := by
  unfold TraceGraph.updateNode at ha
  rcases List.mem_map.mp ha with ⟨b, hb, hba⟩
  exact ⟨b, hb, hba.symm⟩

theorem alookup_updateNode_ne (m : List (Nat × Node)) (nid k : Nat)
    (f : Node → Node) (h : k ≠ nid) :
    alookup (m.map fun kv => if kv.1 = nid then (kv.1, f kv.2) else kv) k =
      alookup m k := by
  induction m with
  | nil => rfl
  | cons kv tl ih =>
    by_cases hk : kv.1 = nid
    · have hne : kv.1 ≠ k := by rw [hk]; exact Ne.symm h
      simp [alookup, hk, hne, Ne.symm h, ih]
    · by_cases hk2 : kv.1 = k <;> simp [alookup, hk, hk2, h, ih]

theorem containsNode_updateNode (g : TraceGraph) (nid k : Nat) (f : Node → Node) :
    (g.updateNode nid f).containsNode k = g.containsNode k := by
  unfold TraceGraph.containsNode TraceGraph.updateNode
  show (alookup (g.nodes.map _) k).isSome = _
  by_cases hk : k = nid
  · subst hk
    rw [show alookup (g.nodes.map fun kv => if kv.1 = k then (kv.1, f kv.2) else kv) k =
          alookup (TraceGraph.updateNode g k f).nodes k from rfl,
      lookup_updateNode_self]
    cases alookup g.nodes k <;> rfl
  · rw [alookup_updateNode_ne g.nodes nid k f hk]

theorem containsNode_add_node_mono (g : TraceGraph) (n : Node) (k : Nat)
    (h : g.containsNode k = true) : (g.add_node n).containsNode k = true := by
  unfold TraceGraph.containsNode TraceGraph.add_node at *
  by_cases hk : k = n.id
  · subst hk; simp [lookup_dictInsert_self]
  · show (alookup (dictInsert g.nodes n.id n) k).isSome = true
    rw [lookup_dictInsert_ne g.nodes n.id k n hk]
    exact h

theorem findSome?_isSome_of_mem {α β : Type} (l : List α) (f : α → Option β)
    (x : α) (hx : x ∈ l) (hfx : (f x).isSome = true) :
    ∃ m, l.findSome? f = some m := by
  induction l with
  | nil => simp at hx
  | cons a tl ih =>
    cases hfa : f a with
    | some b => exact ⟨b, by simp [List.findSome?_cons, hfa]⟩
    | none =>
      rcases List.mem_cons.mp hx with h | h
      · subst h; rw [hfa] at hfx; simp at hfx
      · rcases ih h with ⟨m, hm⟩
        exact ⟨m, by simp [List.findSome?_cons, hfa, hm]⟩

theorem validate_congr (g1 g2 : TraceGraph) (hn : g1.nodes = g2.nodes)
    (he : g1.edges = g2.edges) :
    g1.validate_edge_references = g2.validate_edge_references := by
  unfold TraceGraph.validate_edge_references TraceGraph.containsNode
  rw [hn, he]

theorem constructSpans_seq (names : List String) :
    ∀ (g : TraceGraph) (uuid : Nat) (parent : Option (Nat × Nat)),
      (constructSpans g uuid parent names).1.map
          (fun nd => nd.sequence_number) =
        List.range' g.sequence_counter names.length ∧
      (constructSpans g uuid parent names).2.sequence_counter =
        g.sequence_counter + names.length := by
  induction names with
  | nil =>
    intro g uuid parent
    simp [constructSpans]
  | cons nm rest ih =>
    intro g uuid parent
    obtain ⟨h1, h2⟩ :=
      ih { g with sequence_counter := g.sequence_counter + 1 } (uuid + 1) parent
    simp only [constructSpans, spanConstructNode, TraceGraph.next_sequence_number]
    constructor
    · simp only [List.map_cons, h1, List.length_cons, List.range'_succ]
    · simpa [Nat.add_comm, Nat.add_assoc, Nat.add_left_comm] using h2

/-! ## Claims C3, C4, C5, C6, C7, C9, C10 -/

/-- C3 (counterexample): the claim says cancelled is reachable only from
running and that a terminal status is never changed.  But `set_status`
writes unconditionally, so one `set_status(CANCELLED)` on a fresh span moves
pending→cancelled directly; and an error exit overwrites the terminal
CANCELLED with FAILED. -/
theorem status_machine_claim_cex :
    statusTrajectory freshSpanState [SpanOp.set_status NodeStatus.cancelled] =
      [NodeStatus.pending, NodeStatus.cancelled] ∧
    claimAllowedStep NodeStatus.pending NodeStatus.cancelled = false ∧
    trajectoryAllowed
      (statusTrajectory freshSpanState
        [SpanOp.set_status NodeStatus.cancelled]) = false ∧
    statusTrajectory { status := NodeStatus.cancelled, entered := true }
      [SpanOp.exit true] = [NodeStatus.cancelled, NodeStatus.failed] := by
  refine ⟨rfl, by decide, by decide, rfl⟩

/-- C3 (amended): under the context-manager discipline — one enter followed
by one exit, no explicit set_status — status moves
pending→running→{completed, failed} and every step is among the claimed
transitions; but explicit `set_status` writes any status from any state
(so cancelled is reachable from every status, not only running), and an
error exit writes FAILED over any status (so terminal statuses are not
preserved by later operations). -/
theorem status_machine_amended :
    (∀ failed : Bool,
      statusTrajectory freshSpanState [SpanOp.enter, SpanOp.exit failed] =
        [NodeStatus.pending, NodeStatus.running,
          if failed then NodeStatus.failed else NodeStatus.completed] ∧
      trajectoryAllowed
        (statusTrajectory freshSpanState [SpanOp.enter, SpanOp.exit failed]) =
        true) ∧
    (∀ (s : SpanStatusState) (st : NodeStatus),
      (applyOp s (SpanOp.set_status st)).status = st) ∧
    (∀ s : SpanStatusState, (applyOp s (SpanOp.exit true)).status =
      NodeStatus.failed) := by
  refine ⟨fun failed => ?_, fun s st => rfl, fun s => rfl⟩
  cases failed <;> exact ⟨rfl, by decide⟩

/-- C4: constructing N spans against one TraceGraph whose counter is fresh
assigns sequence numbers that are exactly the list 0, …, N-1 — pairwise
distinct — one drawn per construction from the shared counter (the final
counter equals N, one increment per span). -/
theorem sequence_numbers_exact_range (g : TraceGraph) (uuid : Nat)
    (parent : Option (Nat × Nat)) (names : List String)
    (h : g.sequence_counter = 0) :
    (constructSpans g uuid parent names).1.map
        (fun nd => nd.sequence_number) = List.range names.length ∧
    ((constructSpans g uuid parent names).1.map
        (fun nd => nd.sequence_number)).Nodup ∧
    (constructSpans g uuid parent names).2.sequence_counter = names.length := by
  obtain ⟨h1, h2⟩ := constructSpans_seq names g uuid parent
  rw [h] at h1 h2
  rw [← List.range_eq_range'] at h1
  exact ⟨h1, h1 ▸ List.nodup_range _, by simpa using h2⟩

/-- C4 witness: three spans constructed on a fresh graph draw 0, 1, 2. -/
theorem sequence_numbers_exact_range_witness :
    TraceGraph.sequence_counter { trace_id := 0 } = 0 ∧
    ((constructSpans { trace_id := 0 } 0 none ["a", "b", "c"]).1.map
        (fun nd => nd.sequence_number) = List.range 3 ∧
      ((constructSpans { trace_id := 0 } 0 none ["a", "b", "c"]).1.map
          (fun nd => nd.sequence_number)).Nodup ∧
      (constructSpans { trace_id := 0 } 0 none ["a", "b", "c"]).2.sequence_counter = 3) :=
  ⟨rfl, sequence_numbers_exact_range { trace_id := 0 } 0 none ["a", "b", "c"] rfl⟩

/-- C5: `add_edge` raises exactly when an endpoint id is not a registered
node, and then leaves the graph (its edges included) unchanged; on success
it appends exactly the given edge; and deserializing a payload holding an
edge with an unknown endpoint fails with a load error. -/
theorem add_edge_validation (g : TraceGraph) (e : Edge) (w : WireGraph) :
    ((g.add_edge e).2.isSome = true ↔
      ¬(g.containsNode e.source_id = true ∧ g.containsNode e.target_id = true)) ∧
    ((g.add_edge e).2.isSome = true → (g.add_edge e).1 = g) ∧
    ((g.add_edge e).2 = none →
      (g.add_edge e).1 = { g with edges := g.edges ++ [e] }) ∧
    (∀ e' ∈ w.edges,
      ¬((alookup w.nodes e'.source_id).isSome = true ∧
          (alookup w.nodes e'.target_id).isSome = true) →
      ∃ msg, trace_from_json w = Except.error msg) := by
  refine ⟨?_, ?_, ?_, ?_⟩
  · unfold TraceGraph.add_edge
    by_cases hs : g.containsNode e.source_id = true <;>
      by_cases ht : g.containsNode e.target_id = true <;> simp [hs, ht]
  · unfold TraceGraph.add_edge
    by_cases hs : g.containsNode e.source_id = true <;>
      by_cases ht : g.containsNode e.target_id = true <;> simp [hs, ht]
  · unfold TraceGraph.add_edge
    by_cases hs : g.containsNode e.source_id = true <;>
      by_cases ht : g.containsNode e.target_id = true <;> simp [hs, ht]
  · intro e' he' hbad
    have hfx :
        ((fun e : Edge =>
          if ¬ (rebuiltGraph w).containsNode e.source_id then
            some ("Edge source_id not found in nodes: " ++ toString e.source_id)
          else if ¬ (rebuiltGraph w).containsNode e.target_id then
            some ("Edge target_id not found in nodes: " ++ toString e.target_id)
          else none) e').isSome = true := by
      have hs : (rebuiltGraph w).containsNode e'.source_id =
          (alookup w.nodes e'.source_id).isSome := rfl
      have ht : (rebuiltGraph w).containsNode e'.target_id =
          (alookup w.nodes e'.target_id).isSome := rfl
      by_cases h1 : (rebuiltGraph w).containsNode e'.source_id = true
      · by_cases h2 : (rebuiltGraph w).containsNode e'.target_id = true
        · exact absurd ⟨hs ▸ h1, ht ▸ h2⟩ hbad
        · simp [h1, h2]
      · simp [h1]
    have he'' : e' ∈ (rebuiltGraph w).edges := he'
    obtain ⟨m, hm⟩ := findSome?_isSome_of_mem (rebuiltGraph w).edges
      (fun e : Edge =>
        if ¬ (rebuiltGraph w).containsNode e.source_id then
          some ("Edge source_id not found in nodes: " ++ toString e.source_id)
        else if ¬ (rebuiltGraph w).containsNode e.target_id then
          some ("Edge target_id not found in nodes: " ++ toString e.target_id)
        else none)
      e' he'' hfx
    refine ⟨"Failed to parse trace JSON: " ++ m, ?_⟩
    have hv : (rebuiltGraph w).validate_edge_references = some m := hm
    simp [trace_from_json, hv]

/-- C5 witness: on the two-node demo graph, adding an edge to the unknown
node 3 raises and leaves the graph unchanged, adding 1→2 succeeds by
appending exactly that edge, and deserializing the bad wire payload fails. -/
theorem add_edge_validation_witness :
    ((linkDemoGraph.add_edge { source_id := 1, target_id := 3 }).2.isSome = true ∧
      (linkDemoGraph.add_edge { source_id := 1, target_id := 3 }).1 = linkDemoGraph) ∧
    (linkDemoGraph.add_edge { source_id := 1, target_id := 2 }).1 =
      { linkDemoGraph with
        edges := linkDemoGraph.edges ++ [{ source_id := 1, target_id := 2 }] } ∧
    ∃ msg, trace_from_json badWireGraph = Except.error msg := by
  have h3 := add_edge_validation linkDemoGraph { source_id := 1, target_id := 3 }
    badWireGraph
  have h2 := add_edge_validation linkDemoGraph { source_id := 1, target_id := 2 }
    badWireGraph
  refine ⟨⟨?_, ?_⟩, ?_, ?_⟩
  · exact h3.1.mpr (by decide)
  · exact h3.2.1 (h3.1.mpr (by decide))
  · exact h2.2.2.1 (by decide)
  · exact h3.2.2.2 { source_id := 3, target_id := 3 } (by decide) (by decide)

/-- C6: serializing and deserializing a graph whose edges are valid (as
every graph built through the public API is, since `add_edge` enforces it)
yields a graph with equal `trace_id`, identical nodes with identical field
values, and identical edges — the whole graph is identical except for the
private sequence counter, which is not on the wire. -/
theorem trace_roundtrip (g : TraceGraph)
    (h : g.validate_edge_references = none) :
    trace_from_json (trace_to_json g) =
      Except.ok { g with sequence_counter := 0 } ∧
    ∀ g', trace_from_json (trace_to_json g) = Except.ok g' →
      g'.trace_id = g.trace_id ∧ g'.nodes = g.nodes ∧ g'.edges = g.edges := by
  have hre : rebuiltGraph (trace_to_json g) = { g with sequence_counter := 0 } := rfl
  have hv : (rebuiltGraph (trace_to_json g)).validate_edge_references = none := by
    rw [hre, validate_congr { g with sequence_counter := 0 } g rfl rfl]
    exact h
  have hmain : trace_from_json (trace_to_json g) =
      Except.ok { g with sequence_counter := 0 } := by
    unfold trace_from_json
    rw [hv, hre]
  refine ⟨hmain, fun g' hg' => ?_⟩
  rw [hmain] at hg'
  have : { g with sequence_counter := 0 } = g' := by
    injection hg'
  rw [← this]
  exact ⟨rfl, rfl, rfl⟩

/-- C6 witness: the concrete one-node, one-edge demo graph round-trips to a
graph equal up to the reset sequence counter. -/
theorem trace_roundtrip_witness :
    roundtripDemoGraph.validate_edge_references = none ∧
    (trace_from_json (trace_to_json roundtripDemoGraph) =
        Except.ok { roundtripDemoGraph with sequence_counter := 0 } ∧
      ∀ g', trace_from_json (trace_to_json roundtripDemoGraph) = Except.ok g' →
        g'.trace_id = roundtripDemoGraph.trace_id ∧
        g'.nodes = roundtripDemoGraph.nodes ∧
        g'.edges = roundtripDemoGraph.edges) :=
  ⟨rfl, trace_roundtrip roundtripDemoGraph rfl⟩

/-- C7 (counterexample): on the two-node demo graph, `link` without an
explicit edge type appends an edge of type `data_flow` — the source's
default parameter — not `caused_by` as the claim states. -/
theorem link_default_edge_type_cex :
    (Span.link linkDemoGraph 1 2).2 = none ∧
    (Span.link linkDemoGraph 1 2).1.edges =
      [{ source_id := 1, target_id := 2, edge_type := EdgeType.data_flow }] ∧
    EdgeType.data_flow ≠ EdgeType.caused_by := by
  refine ⟨rfl, rfl, by decide⟩

/-- C7 (amended): calling `link` without an explicit edge type between two
registered (entered) spans appends exactly one new edge — source the caller,
target the argument — of type `data_flow` (the source's default), leaving
every existing node and edge untouched. -/
theorem link_appends_single_edge (g : TraceGraph) (sid tid : Nat)
    (hs : g.containsNode sid = true) (ht : g.containsNode tid = true) :
    Span.link g sid tid =
      ({ g with edges := g.edges ++
        [{ source_id := sid, target_id := tid, edge_type := EdgeType.data_flow }] },
       none) := by
  unfold Span.link TraceGraph.add_edge
  simp [hs, ht]

/-- C7 (amended) witness: linking node 1 to node 2 in the demo graph. -/
theorem link_appends_single_edge_witness :
    linkDemoGraph.containsNode 1 = true ∧ linkDemoGraph.containsNode 2 = true ∧
    Span.link linkDemoGraph 1 2 =
      ({ linkDemoGraph with edges := linkDemoGraph.edges ++
        [{ source_id := 1, target_id := 2, edge_type := EdgeType.data_flow }] },
       none) :=
  ⟨rfl, rfl, link_appends_single_edge linkDemoGraph 1 2 rfl rfl⟩

/-- C9: for a string value under a positive size limit, `Span.input` stores
the value unchanged when it fits, and otherwise stores its first `L`
characters followed by the marker recording the original length (a string
containing `TRUNCATED`); an absent or zero limit stores the value unchanged;
`Span.output` behaves identically under `max_output_size`. -/
theorem input_output_truncation (cfg : TracerConfig) (nd : Node) (key v : String) :
    (∀ L : Int, cfg.max_input_size = some L → 0 < L →
      (((v.length : Int) ≤ L →
        alookup ((Span.input ⟨nd, cfg⟩ [(key, PyValue.pstr v)]).node_record.input_data)
          key = some (PyValue.pstr v)) ∧
      (L < (v.length : Int) →
        alookup ((Span.input ⟨nd, cfg⟩ [(key, PyValue.pstr v)]).node_record.input_data)
          key = some (PyValue.pstr (v.take L.toNat ++
            "... [TRUNCATED: original_size=" ++ toString v.length ++ "]")) ∧
        ∃ pre post,
          v.take L.toNat ++ "... [TRUNCATED: original_size=" ++
              toString v.length ++ "]" = pre ++ "TRUNCATED" ++ post))) ∧
    (cfg.max_input_size = none →
      alookup ((Span.input ⟨nd, cfg⟩ [(key, PyValue.pstr v)]).node_record.input_data)
        key = some (PyValue.pstr v)) ∧
    (cfg.max_input_size = some 0 →
      alookup ((Span.input ⟨nd, cfg⟩ [(key, PyValue.pstr v)]).node_record.input_data)
        key = some (PyValue.pstr v)) ∧
    (∀ L : Int, cfg.max_output_size = some L → 0 < L →
      (((v.length : Int) ≤ L →
        alookup ((Span.output ⟨nd, cfg⟩ [(key, PyValue.pstr v)]).node_record.output_data)
          key = some (PyValue.pstr v)) ∧
      (L < (v.length : Int) →
        alookup ((Span.output ⟨nd, cfg⟩ [(key, PyValue.pstr v)]).node_record.output_data)
          key = some (PyValue.pstr (v.take L.toNat ++
            "... [TRUNCATED: original_size=" ++ toString v.length ++ "]"))))) ∧
    (cfg.max_output_size = none →
      alookup ((Span.output ⟨nd, cfg⟩ [(key, PyValue.pstr v)]).node_record.output_data)
        key = some (PyValue.pstr v)) ∧
    (cfg.max_output_size = some 0 →
      alookup ((Span.output ⟨nd, cfg⟩ [(key, PyValue.pstr v)]).node_record.output_data)
        key = some (PyValue.pstr v)) := by
  have hin : alookup
      ((Span.input ⟨nd, cfg⟩ [(key, PyValue.pstr v)]).node_record.input_data) key =
      some (truncate_if_needed (PyValue.pstr v) cfg.max_input_size) := by
    simp only [Span.input, dictUpdate, safe_value, List.map_cons, List.map_nil,
      List.foldl_cons, List.foldl_nil]
    exact lookup_dictInsert_self nd.input_data key _
  have hout : alookup
      ((Span.output ⟨nd, cfg⟩ [(key, PyValue.pstr v)]).node_record.output_data) key =
      some (truncate_if_needed (PyValue.pstr v) cfg.max_output_size) := by
    simp only [Span.output, dictUpdate, safe_value, List.map_cons, List.map_nil,
      List.foldl_cons, List.foldl_nil]
    exact lookup_dictInsert_self nd.output_data key _
  refine ⟨?_, ?_, ?_, ?_, ?_, ?_⟩
  · intro L hL hpos
    rw [hL] at hin
    constructor
    · intro hle
      rw [hin]
      simp [truncate_if_needed, Int.not_le.mpr hpos, hle]
    · intro hgt
      constructor
      · rw [hin]
        simp [truncate_if_needed, Int.not_le.mpr hpos, Int.not_le.mpr hgt]
      · refine ⟨v.take L.toNat ++ "... [",
          ": original_size=" ++ toString v.length ++ "]", ?_⟩
        rw [show ("... [TRUNCATED: original_size=" : String) =
            ("... [" ++ "TRUNCATED") ++ ": original_size=" from rfl]
        simp only [String.append_assoc]
  · intro hL; rw [hL] at hin; simpa [truncate_if_needed] using hin
  · intro hL; rw [hL] at hin; simpa [truncate_if_needed] using hin
  · intro L hL hpos
    rw [hL] at hout
    constructor
    · intro hle
      rw [hout]
      simp [truncate_if_needed, Int.not_le.mpr hpos, hle]
    · intro hgt
      rw [hout]
      simp [truncate_if_needed, Int.not_le.mpr hpos, Int.not_le.mpr hgt]
  · intro hL; rw [hL] at hout; simpa [truncate_if_needed] using hout
  · intro hL; rw [hL] at hout; simpa [truncate_if_needed] using hout

/-- C9 witness: `max_input_size = 6` on the length-10 string "abcdefghij"
stores the first 6 characters plus a marker containing `TRUNCATED` and the
original length 10. -/
theorem input_output_truncation_witness :
    TracerConfig.max_input_size { max_input_size := some 6 } = some 6 ∧
    (0 : Int) < 6 ∧ (6 : Int) < (("abcdefghij" : String).length : Int) ∧
    (alookup ((Span.input ⟨demoNode, { max_input_size := some 6 }⟩
        [("x", PyValue.pstr "abcdefghij")]).node_record.input_data) "x" =
      some (PyValue.pstr (("abcdefghij" : String).take (6 : Int).toNat ++
        "... [TRUNCATED: original_size=" ++
        toString ("abcdefghij" : String).length ++ "]")) ∧
    ∃ pre post,
      ("abcdefghij" : String).take (6 : Int).toNat ++
          "... [TRUNCATED: original_size=" ++
          toString ("abcdefghij" : String).length ++ "]" =
        pre ++ "TRUNCATED" ++ post) := by
  refine ⟨rfl, by decide, by decide, ?_⟩
  exact ((input_output_truncation { max_input_size := some 6 } demoNode
    "x" "abcdefghij").1 6 rfl (by decide)).2 (by decide)

/-- C10: deserializing a serialized graph resets the private sequence
counter to 0: the first `next_sequence_number` on the round-tripped graph
returns 0, the original nodes are all still present, and if the original
graph held a node with sequence number 0 the next span constructed on the
round-tripped graph draws that same number — a duplicate. -/
theorem roundtrip_resets_sequence_counter (g g' : TraceGraph)
    (h : trace_from_json (trace_to_json g) = Except.ok g') :
    g'.sequence_counter = 0 ∧
    g'.next_sequence_number.1 = 0 ∧
    ∀ kv ∈ g.nodes, kv ∈ g'.nodes ∧
      (kv.2.sequence_number = 0 →
        g'.next_sequence_number.1 = kv.2.sequence_number) := by
  have hg' : g' = { g with sequence_counter := 0 } := by
    unfold trace_from_json at h
    cases hv : (rebuiltGraph (trace_to_json g)).validate_edge_references with
    | some m => rw [hv] at h; exact absurd h (by simp)
    | none =>
      rw [hv] at h
      have : rebuiltGraph (trace_to_json g) = g' := by injection h
      rw [← this]; rfl
  subst hg'
  exact ⟨rfl, rfl, fun kv hkv => ⟨hkv, fun h0 => by rw [h0]; rfl⟩⟩

/-- C10 witness: the demo graph holds a node with sequence number 0 and a
counter of 1; its round-trip draws 0 again. -/
theorem roundtrip_resets_sequence_counter_witness :
    trace_from_json (trace_to_json roundtripDemoGraph) =
      Except.ok { roundtripDemoGraph with sequence_counter := 0 } ∧
    ({ roundtripDemoGraph with sequence_counter := 0 } :
        TraceGraph).sequence_counter = 0 ∧
    ({ roundtripDemoGraph with sequence_counter := 0 } :
        TraceGraph).next_sequence_number.1 = 0 ∧
    ∀ kv ∈ roundtripDemoGraph.nodes,
      kv ∈ ({ roundtripDemoGraph with sequence_counter := 0 } : TraceGraph).nodes ∧
      (kv.2.sequence_number = 0 →
        ({ roundtripDemoGraph with sequence_counter := 0 } :
          TraceGraph).next_sequence_number.1 = kv.2.sequence_number) := by
  refine ⟨rfl, ?_⟩
  exact roundtrip_resets_sequence_counter roundtripDemoGraph
    { roundtripDemoGraph with sequence_counter := 0 } rfl

/-! ## Interpreter step lemmas -/

theorem nodes_add_edge (g : TraceGraph) (e : Edge) :
    (g.add_edge e).1.nodes = g.nodes := by
  unfold TraceGraph.add_edge
  split
  · rfl
  · split <;> rfl

theorem exitRecord_id (res : Option Err) (t : Nat) (nd : Node) :
    (exitRecord res t nd).id = nd.id := by
  cases res <;> rfl

theorem exitRecord_seq (res : Option Err) (t : Nat) (nd : Node) :
    (exitRecord res t nd).sequence_number = nd.sequence_number := by
  cases res <;> rfl

theorem spanEnter_nodes (n : Node) (s : TraceState) :
    (spanEnter n s).graph.nodes =
      dictInsert s.graph.nodes n.id
        { n with status := NodeStatus.running, start_time := some s.clock } := by
  unfold spanEnter now fireAll
  cases n.parent_id with
  | none => rfl
  | some pid =>
    show ((TraceGraph.add_node _ _).add_edge _).1.nodes = _
    rw [nodes_add_edge]
    rfl

theorem spanEnter_log (n : Node) (s : TraceState) :
    (spanEnter n s).log =
      s.log ++ (List.range s.nhooks).map (fun i => Event.node_started i n.id) := by
  unfold spanEnter now fireAll
  cases n.parent_id <;> rfl

theorem spanEnter_nhooks (n : Node) (s : TraceState) :
    (spanEnter n s).nhooks = s.nhooks := by
  unfold spanEnter now fireAll
  cases n.parent_id <;> rfl

theorem spanEnter_store (n : Node) (s : TraceState) :
    (spanEnter n s).store = s.store := by
  unfold spanEnter now fireAll
  cases n.parent_id <;> rfl

theorem spanEnter_containsNode_mono (n : Node) (s : TraceState) (k : Nat)
    (h : s.graph.containsNode k = true) :
    (spanEnter n s).graph.containsNode k = true := by
  show (alookup (spanEnter n s).graph.nodes k).isSome = true
  rw [spanEnter_nodes]
  by_cases hk : k = n.id
  · subst hk; rw [lookup_dictInsert_self]; rfl
  · rw [lookup_dictInsert_ne s.graph.nodes n.id k _ hk]
    exact h

theorem spanExit_graph (nid : Nat) (res : Option Err) (s : TraceState) :
    (spanExit nid res s).graph =
      s.graph.updateNode nid (exitRecord res s.clock) := by
  unfold spanExit now fireAll
  cases res <;> rfl

theorem spanExit_log (nid : Nat) (res : Option Err) (s : TraceState) :
    (spanExit nid res s).log = s.log ++ (List.range s.nhooks).map
      (fun i => match res with
        | none => Event.node_completed i nid
        | some _ => Event.node_failed i nid) := by
  unfold spanExit now fireAll
  cases res <;> rfl

theorem spanExit_nhooks (nid : Nat) (res : Option Err) (s : TraceState) :
    (spanExit nid res s).nhooks = s.nhooks := by
  unfold spanExit now fireAll
  cases res <;> rfl

theorem spanExit_store (nid : Nat) (res : Option Err) (s : TraceState) :
    (spanExit nid res s).store = s.store := by
  unfold spanExit now fireAll
  cases res <;> rfl

theorem spanExit_containsNode_mono (nid : Nat) (res : Option Err)
    (s : TraceState) (k : Nat) (h : s.graph.containsNode k = true) :
    (spanExit nid res s).graph.containsNode k = true := by
  rw [show (spanExit nid res s).graph.containsNode k =
    (s.graph.updateNode nid (exitRecord res s.clock)).containsNode k from
    congrArg (fun g => TraceGraph.containsNode g k) (spanExit_graph nid res s),
    containsNode_updateNode]
  exact h

theorem runBody_nhooks (b : Body) : ∀ s : TraceState,
    (runBody b s).1.nhooks = s.nhooks := by
  induction b with
  | nop => intro s; rfl
  | raiseErr m ty => intro s; rfl
  | seq a c iha ihc =>
    intro s
    show (match runBody a s with
      | (s', none) => runBody c s'
      | (s', some e) => (s', some e)).1.nhooks = s.nhooks
    rcases h : runBody a s with ⟨s', res⟩
    cases res with
    | none =>
      have := iha s
      rw [h] at this
      exact (ihc s').trans this
    | some e =>
      have := iha s
      rw [h] at this
      simpa using this
  | span nm ty body ih =>
    intro s
    show (match runBody body (spanEnter (spanConstruct s nm ty).1
        (spanConstruct s nm ty).2) with
      | (s3, res) => (spanExit (spanConstruct s nm ty).1.id res s3, res)).1.nhooks =
      s.nhooks
    rcases h : runBody body (spanEnter (spanConstruct s nm ty).1
      (spanConstruct s nm ty).2) with ⟨s3, res⟩
    have hb := ih (spanEnter (spanConstruct s nm ty).1 (spanConstruct s nm ty).2)
    rw [h] at hb
    simp only [spanExit_nhooks]
    rw [hb, spanEnter_nhooks]
    rfl

theorem runBody_store (b : Body) : ∀ s : TraceState,
    (runBody b s).1.store = s.store := by
  induction b with
  | nop => intro s; rfl
  | raiseErr m ty => intro s; rfl
  | seq a c iha ihc =>
    intro s
    show (match runBody a s with
      | (s', none) => runBody c s'
      | (s', some e) => (s', some e)).1.store = s.store
    rcases h : runBody a s with ⟨s', res⟩
    cases res with
    | none =>
      have := iha s
      rw [h] at this
      exact (ihc s').trans this
    | some e =>
      have := iha s
      rw [h] at this
      simpa using this
  | span nm ty body ih =>
    intro s
    show (match runBody body (spanEnter (spanConstruct s nm ty).1
        (spanConstruct s nm ty).2) with
      | (s3, res) => (spanExit (spanConstruct s nm ty).1.id res s3, res)).1.store =
      s.store
    rcases h : runBody body (spanEnter (spanConstruct s nm ty).1
      (spanConstruct s nm ty).2) with ⟨s3, res⟩
    have hb := ih (spanEnter (spanConstruct s nm ty).1 (spanConstruct s nm ty).2)
    rw [h] at hb
    simp only [spanExit_store]
    rw [hb, spanEnter_store]
    rfl

theorem runBody_containsNode_mono (b : Body) : ∀ (s : TraceState) (k : Nat),
    s.graph.containsNode k = true →
    (runBody b s).1.graph.containsNode k = true := by
  induction b with
  | nop => intro s k h; exact h
  | raiseErr m ty => intro s k h; exact h
  | seq a c iha ihc =>
    intro s k h
    show (match runBody a s with
      | (s', none) => runBody c s'
      | (s', some e) => (s', some e)).1.graph.containsNode k = true
    rcases ha : runBody a s with ⟨s', res⟩
    have h' := iha s k h
    rw [ha] at h'
    cases res with
    | none => simpa using ihc s' k h'
    | some e => simpa using h'
  | span nm ty body ih =>
    intro s k h
    show (match runBody body (spanEnter (spanConstruct s nm ty).1
        (spanConstruct s nm ty).2) with
      | (s3, res) => (spanExit (spanConstruct s nm ty).1.id res s3, res)).1.graph.containsNode k = true
    rcases hb : runBody body (spanEnter (spanConstruct s nm ty).1
      (spanConstruct s nm ty).2) with ⟨s3, res⟩
    have h1 : (spanConstruct s nm ty).2.graph.containsNode k = true := h
    have h2 := spanEnter_containsNode_mono (spanConstruct s nm ty).1
      (spanConstruct s nm ty).2 k h1
    have h3 := ih (spanEnter (spanConstruct s nm ty).1 (spanConstruct s nm ty).2) k h2
    rw [hb] at h3
    simpa using spanExit_containsNode_mono (spanConstruct s nm ty).1.id res s3 k h3

theorem finalize_log (f : Bool) (s : TraceState) :
    (finalize f s).log = s.log ++ [Event.save_attempt (!f)] ++
      (List.range s.nhooks).map Event.trace_completed := by
  unfold finalize now
  rfl

theorem finalize_nodes (f : Bool) (s : TraceState) :
    (finalize f s).graph.nodes = s.graph.nodes := rfl

theorem finalize_nhooks (f : Bool) (s : TraceState) :
    (finalize f s).nhooks = s.nhooks := rfl

theorem spanEnter_log_events (n : Node) (s : TraceState)
    (h : ∀ e ∈ s.log, isNodeEvent e = true) :
    ∀ e ∈ (spanEnter n s).log, isNodeEvent e = true := by
  rw [spanEnter_log]
  intro e he
  rcases List.mem_append.mp he with h1 | h1
  · exact h e h1
  · rcases List.mem_map.mp h1 with ⟨i, _, hi⟩
    rw [← hi]
    rfl

theorem spanExit_log_events (nid : Nat) (res : Option Err) (s : TraceState)
    (h : ∀ e ∈ s.log, isNodeEvent e = true) :
    ∀ e ∈ (spanExit nid res s).log, isNodeEvent e = true := by
  rw [spanExit_log]
  intro e he
  rcases List.mem_append.mp he with h1 | h1
  · exact h e h1
  · rcases List.mem_map.mp h1 with ⟨i, _, hi⟩
    rw [← hi]
    cases res <;> rfl

theorem runBody_log_events (b : Body) : ∀ s : TraceState,
    (∀ e ∈ s.log, isNodeEvent e = true) →
    ∀ e ∈ (runBody b s).1.log, isNodeEvent e = true := by
  induction b with
  | nop => intro s h; exact h
  | raiseErr m ty => intro s h; exact h
  | seq a c iha ihc =>
    intro s h
    show ∀ e ∈ (match runBody a s with
      | (s', none) => runBody c s'
      | (s', some e) => (s', some e)).1.log, isNodeEvent e = true
    rcases ha : runBody a s with ⟨s', res⟩
    have h' := iha s h
    rw [ha] at h'
    cases res with
    | none => simpa using ihc s' h'
    | some e => simpa using h'
  | span nm ty body ih =>
    intro s h
    show ∀ e ∈ (match runBody body (spanEnter (spanConstruct s nm ty).1
        (spanConstruct s nm ty).2) with
      | (s3, res) => (spanExit (spanConstruct s nm ty).1.id res s3, res)).1.log,
      isNodeEvent e = true
    rcases hb : runBody body (spanEnter (spanConstruct s nm ty).1
      (spanConstruct s nm ty).2) with ⟨s3, res⟩
    have h1 : ∀ e ∈ (spanConstruct s nm ty).2.log, isNodeEvent e = true := h
    have h2 := spanEnter_log_events (spanConstruct s nm ty).1
      (spanConstruct s nm ty).2 h1
    have h3 := ih (spanEnter (spanConstruct s nm ty).1 (spanConstruct s nm ty).2) h2
    rw [hb] at h3
    simpa using spanExit_log_events (spanConstruct s nm ty).1.id res s3 h3

theorem hookInv_extend (s' s : TraceState)
    (hn : s'.graph.nodes = s.graph.nodes) (hh : s'.nhooks = s.nhooks)
    (Δ : List Event) (hl : s'.log = s.log ++ Δ) (h : HookInv s) : HookInv s' := by
  intro kv hkv
  rw [hn] at hkv
  obtain ⟨h1, h2, h3⟩ := h kv hkv
  rw [hh, hl]
  exact ⟨fun i hi => List.mem_append_left _ (h1 i hi),
    fun hst i hi => List.mem_append_left _ (h2 hst i hi),
    fun hst i hi => List.mem_append_left _ (h3 hst i hi)⟩

theorem hookInv_spanEnter (n : Node) (s : TraceState) (h : HookInv s) :
    HookInv (spanEnter n s) := by
  intro kv hkv
  rw [spanEnter_nodes] at hkv
  rw [spanEnter_nhooks, spanEnter_log]
  rcases mem_dictInsert _ _ _ kv hkv with hold | hnew
  · obtain ⟨h1, h2, h3⟩ := h kv hold
    exact ⟨fun i hi => List.mem_append_left _ (h1 i hi),
      fun hst i hi => List.mem_append_left _ (h2 hst i hi),
      fun hst i hi => List.mem_append_left _ (h3 hst i hi)⟩
  · subst hnew
    refine ⟨fun i hi => ?_, fun hst => ?_, fun hst => ?_⟩
    · exact List.mem_append_right _
        (List.mem_map.mpr ⟨i, List.mem_range.mpr hi, rfl⟩)
    · exact absurd hst (by simp)
    · exact absurd hst (by simp)

theorem hookInv_spanExit (nid : Nat) (res : Option Err) (s : TraceState)
    (h : HookInv s) : HookInv (spanExit nid res s) := by
  intro kv hkv
  rw [show (spanExit nid res s).graph.nodes =
    (s.graph.updateNode nid (exitRecord res s.clock)).nodes from
    congrArg TraceGraph.nodes (spanExit_graph nid res s)] at hkv
  rw [spanExit_nhooks, spanExit_log]
  rcases mem_updateNode _ _ _ kv hkv with ⟨b, hb, hbeq⟩
  obtain ⟨h1, h2, h3⟩ := h b hb
  by_cases hbk : b.1 = nid
  · rw [if_pos hbk] at hbeq
    subst hbeq
    cases res with
    | none =>
      refine ⟨fun i hi => List.mem_append_left _ (h1 i hi), fun hst i hi => ?_,
        fun hst i hi => ?_⟩
      · by_cases hr : b.2.status = NodeStatus.running
        · refine List.mem_append_right _ (List.mem_map.mpr
            ⟨i, List.mem_range.mpr hi, ?_⟩)
          rw [hbk]
        · have : b.2.status = NodeStatus.completed := by
            have hst' : (exitRecord none s.clock b.2).status = NodeStatus.completed := hst
            simpa [exitRecord, hr] using hst'
          exact List.mem_append_left _ (h2 this i hi)
      · have hst' : (exitRecord none s.clock b.2).status = NodeStatus.failed := hst
        by_cases hr : b.2.status = NodeStatus.running
        · simp [exitRecord, hr] at hst'
        · have : b.2.status = NodeStatus.failed := by
            simpa [exitRecord, hr] using hst'
          exact List.mem_append_left _ (h3 this i hi)
    | some e =>
      refine ⟨fun i hi => List.mem_append_left _ (h1 i hi), fun hst i hi => ?_,
        fun hst i hi => ?_⟩
      · have hst' : (exitRecord (some e) s.clock b.2).status = NodeStatus.completed := hst
        simp [exitRecord] at hst'
      · refine List.mem_append_right _ (List.mem_map.mpr
          ⟨i, List.mem_range.mpr hi, ?_⟩)
        rw [hbk]
  · rw [if_neg hbk] at hbeq
    subst hbeq
    exact ⟨fun i hi => List.mem_append_left _ (h1 i hi),
      fun hst i hi => List.mem_append_left _ (h2 hst i hi),
      fun hst i hi => List.mem_append_left _ (h3 hst i hi)⟩

theorem hookInv_runBody (b : Body) : ∀ s : TraceState,
    HookInv s → HookInv (runBody b s).1 := by
  induction b with
  | nop => intro s h; exact h
  | raiseErr m ty => intro s h; exact h
  | seq a c iha ihc =>
    intro s h
    show HookInv (match runBody a s with
      | (s', none) => runBody c s'
      | (s', some e) => (s', some e)).1
    rcases ha : runBody a s with ⟨s', res⟩
    have h' := iha s h
    rw [ha] at h'
    cases res with
    | none => simpa using ihc s' h'
    | some e => simpa using h'
  | span nm ty body ih =>
    intro s h
    show HookInv (match runBody body (spanEnter (spanConstruct s nm ty).1
        (spanConstruct s nm ty).2) with
      | (s3, res) => (spanExit (spanConstruct s nm ty).1.id res s3, res)).1
    rcases hb : runBody body (spanEnter (spanConstruct s nm ty).1
      (spanConstruct s nm ty).2) with ⟨s3, res⟩
    have h1 : HookInv (spanConstruct s nm ty).2 := h
    have h2 := hookInv_spanEnter (spanConstruct s nm ty).1 (spanConstruct s nm ty).2 h1
    have h3 := ih (spanEnter (spanConstruct s nm ty).1 (spanConstruct s nm ty).2) h2
    rw [hb] at h3
    simpa using hookInv_spanExit (spanConstruct s nm ty).1.id res s3 h3

/-! ## Claims C1, C2, C8 -/

/-- C2: when a span's scope body raises, the span's node ends FAILED with
the error's message, class name, a traceback and a stamped `end_time`, and
the error propagates out of the scope unchanged (`__exit__` returns
`False`). -/
theorem span_scope_error_capture (s : TraceState) (nm ty : String) (body : Body)
    (s3 : TraceState) (e : Err)
    (h : runBody body (spanEnter (spanConstruct s nm ty).1
      (spanConstruct s nm ty).2) = (s3, some e)) :
    runBody (Body.span nm ty body) s =
      (spanExit (spanConstruct s nm ty).1.id (some e) s3, some e) ∧
    ∃ nd, alookup (spanExit (spanConstruct s nm ty).1.id (some e) s3).graph.nodes
        (spanConstruct s nm ty).1.id = some nd ∧
      nd.status = NodeStatus.failed ∧
      nd.error = some e.msg ∧
      nd.error_type = some e.ty ∧
      nd.error_traceback.isSome = true ∧
      nd.end_time.isSome = true := by
  have h1 : runBody (Body.span nm ty body) s =
      (spanExit (spanConstruct s nm ty).1.id (some e) s3, some e) := by
    show (match runBody body (spanEnter (spanConstruct s nm ty).1
        (spanConstruct s nm ty).2) with
      | (s3', res) => (spanExit (spanConstruct s nm ty).1.id res s3', res)) = _
    rw [h]
  refine ⟨h1, ?_⟩
  have hc0 : (spanEnter (spanConstruct s nm ty).1
      (spanConstruct s nm ty).2).graph.containsNode
      (spanConstruct s nm ty).1.id = true := by
    show (alookup _ _).isSome = true
    rw [spanEnter_nodes, lookup_dictInsert_self]
    rfl
  have hc := runBody_containsNode_mono body _ _ hc0
  rw [h] at hc
  have hc' : (alookup s3.graph.nodes (spanConstruct s nm ty).1.id).isSome = true := hc
  obtain ⟨nd3, hnd3⟩ := Option.isSome_iff_exists.mp hc'
  rw [show (spanExit (spanConstruct s nm ty).1.id (some e) s3).graph =
    s3.graph.updateNode (spanConstruct s nm ty).1.id (exitRecord (some e) s3.clock)
    from spanExit_graph _ _ _]
  rw [lookup_updateNode_self, hnd3]
  exact ⟨exitRecord (some e) s3.clock nd3, rfl, rfl, rfl, rfl, rfl, rfl⟩

/-- C2 witness: a child span whose body raises ValueError "boom" inside a
one-hook trace. -/
theorem span_scope_error_capture_witness :
    runBody (Body.raiseErr "boom" "ValueError")
      (spanEnter (spanConstruct (initState 1 "t") "c" "custom").1
        (spanConstruct (initState 1 "t") "c" "custom").2) =
      (spanEnter (spanConstruct (initState 1 "t") "c" "custom").1
        (spanConstruct (initState 1 "t") "c" "custom").2,
       some { msg := "boom", ty := "ValueError" }) ∧
    (runBody (Body.span "c" "custom" (Body.raiseErr "boom" "ValueError"))
        (initState 1 "t") =
      (spanExit (spanConstruct (initState 1 "t") "c" "custom").1.id
        (some { msg := "boom", ty := "ValueError" })
        (spanEnter (spanConstruct (initState 1 "t") "c" "custom").1
          (spanConstruct (initState 1 "t") "c" "custom").2),
       some { msg := "boom", ty := "ValueError" }) ∧
    ∃ nd, alookup (spanExit (spanConstruct (initState 1 "t") "c" "custom").1.id
        (some { msg := "boom", ty := "ValueError" })
        (spanEnter (spanConstruct (initState 1 "t") "c" "custom").1
          (spanConstruct (initState 1 "t") "c" "custom").2)).graph.nodes
        (spanConstruct (initState 1 "t") "c" "custom").1.id = some nd ∧
      nd.status = NodeStatus.failed ∧
      nd.error = some "boom" ∧
      nd.error_type = some "ValueError" ∧
      nd.error_traceback.isSome = true ∧
      nd.end_time.isSome = true) :=
  ⟨rfl, span_scope_error_capture (initState 1 "t") "c" "custom"
    (Body.raiseErr "boom" "ValueError")
    (spanEnter (spanConstruct (initState 1 "t") "c" "custom").1
      (spanConstruct (initState 1 "t") "c" "custom").2)
    { msg := "boom", ty := "ValueError" } rfl⟩

/-- C8: a failing `storage.save` during trace-scope exit changes nothing the
host can observe except the persistence itself: the propagated outcome (the
body's own exception or none) is identical to a run with working storage,
the in-memory graph — nodes, edges, and the already-stamped `end_time` — is
identical, and only the store misses the graph that the working run saved. -/
theorem storage_failure_nonfatal (n : Nat) (nm : String) (body : Body) :
    (runTrace n nm body true).2 = (runTrace n nm body false).2 ∧
    (runTrace n nm body true).2 = (runBody body (traceStartState n nm)).2 ∧
    (runTrace n nm body true).1.graph = (runTrace n nm body false).1.graph ∧
    (runTrace n nm body true).1.graph.end_time.isSome = true ∧
    (runTrace n nm body false).1.store =
      (runTrace n nm body true).1.store ++ [(runTrace n nm body false).1.graph] :=
  ⟨rfl, rfl, rfl, rfl, rfl⟩

/-- C1: in a trace with a non-empty hook list, every registered (entered)
node has `on_node_started` fired on every hook; every node that completed
(resp. failed) has `on_node_completed` (resp. `on_node_failed`) fired on
every hook; and the log ends with the storage-save attempt followed by
exactly one `on_trace_completed` per hook, with the root span's exit event
dispatched before the save attempt. -/
theorem hooks_fire_on_trace_lifecycle (n : Nat) (nm : String) (body : Body)
    (saveFails : Bool) (hn : 0 < n) :
    (∀ kv ∈ (runTrace n nm body saveFails).1.graph.nodes,
      (∀ i < n, Event.node_started i kv.1 ∈ (runTrace n nm body saveFails).1.log) ∧
      (kv.2.status = NodeStatus.completed →
        ∀ i < n, Event.node_completed i kv.1 ∈ (runTrace n nm body saveFails).1.log) ∧
      (kv.2.status = NodeStatus.failed →
        ∀ i < n, Event.node_failed i kv.1 ∈ (runTrace n nm body saveFails).1.log)) ∧
    (∃ L, (runTrace n nm body saveFails).1.log =
        L ++ [Event.save_attempt (!saveFails)] ++
          (List.range n).map Event.trace_completed ∧
      (∀ j, Event.trace_completed j ∉ L) ∧
      (∀ i < n, (match (runTrace n nm body saveFails).2 with
          | none => Event.node_completed i rootId
          | some _ => Event.node_failed i rootId) ∈ L)) := by
  rcases hq : runBody body (traceStartState n nm) with ⟨s4, res⟩
  have hshape : runTrace n nm body saveFails =
      (finalize saveFails { spanExit (rootSpanNode n nm).id res s4 with
        ambient := (spanExit (rootSpanNode n nm).id res s4).ambient.tail }, res) := by
    have h0 : runTrace n nm body saveFails =
        (match runBody body (traceStartState n nm) with
          | (s4', res') => (finalize saveFails
              { spanExit (rootSpanNode n nm).id res' s4' with
                ambient := (spanExit (rootSpanNode n nm).id res' s4').ambient.tail },
              res')) := rfl
    rw [h0, hq]
  rw [hshape]
  set s5 := spanExit (rootSpanNode n nm).id res s4 with hs5d
  set s6 := { s5 with ambient := s5.ambient.tail } with hs6d
  have hTS : (traceStartState n nm).nhooks = n := by
    unfold traceStartState
    rw [spanEnter_nhooks]
    rfl
  have hnh4 : s4.nhooks = n := by
    have h := runBody_nhooks body (traceStartState n nm)
    rw [hq] at h
    exact h.trans hTS
  have hnh5 : s5.nhooks = n := by
    rw [hs5d, spanExit_nhooks]
    exact hnh4
  have hnh6 : s6.nhooks = n := hnh5
  have hinv0 : HookInv (traceStartState n nm) := by
    unfold traceStartState
    apply hookInv_spanEnter
    intro kv hkv
    have hkv' : kv ∈ ([] : List (Nat × Node)) := hkv
    simp at hkv'
  have hinv4 : HookInv s4 := by
    have h := hookInv_runBody body (traceStartState n nm) hinv0
    rw [hq] at h
    exact h
  have hinv5 : HookInv s5 := by
    rw [hs5d]
    exact hookInv_spanExit _ _ _ hinv4
  have hinv6 : HookInv s6 := hinv5
  have hinvF : HookInv (finalize saveFails s6) := by
    refine hookInv_extend (finalize saveFails s6) s6 (finalize_nodes _ _)
      (finalize_nhooks _ _)
      ([Event.save_attempt (!saveFails)] ++
        (List.range s6.nhooks).map Event.trace_completed) ?_ hinv6
    rw [finalize_log, List.append_assoc]
  have hnF : (finalize saveFails s6).nhooks = n := (finalize_nhooks _ _).trans hnh6
  constructor
  · intro kv hkv
    obtain ⟨h1, h2, h3⟩ := hinvF kv hkv
    exact ⟨fun i hi => h1 i (by rw [hnF]; exact hi),
      fun hst i hi => h2 hst i (by rw [hnF]; exact hi),
      fun hst i hi => h3 hst i (by rw [hnF]; exact hi)⟩
  · refine ⟨s5.log, ?_, ?_, ?_⟩
    · show (finalize saveFails s6).log = _
      rw [finalize_log, hnh6]
    · intro j hj
      have hbase : ∀ e ∈ (traceStartState n nm).log, isNodeEvent e = true := by
        unfold traceStartState
        apply spanEnter_log_events
        intro e he
        have he' : e ∈ ([] : List Event) := he
        simp at he'
      have hne : ∀ e ∈ s5.log, isNodeEvent e = true := by
        rw [hs5d]
        apply spanExit_log_events
        intro e he
        have h4 := runBody_log_events body (traceStartState n nm) hbase
        rw [hq] at h4
        exact h4 e he
      have := hne _ hj
      simp [isNodeEvent] at this
    · intro i hi
      cases res with
      | none =>
        show Event.node_completed i rootId ∈ s5.log
        rw [hs5d, spanExit_log]
        refine List.mem_append_right _ (List.mem_map.mpr
          ⟨i, List.mem_range.mpr (by rw [hnh4]; exact hi), rfl⟩)
      | some e =>
        show Event.node_failed i rootId ∈ s5.log
        rw [hs5d, spanExit_log]
        refine List.mem_append_right _ (List.mem_map.mpr
          ⟨i, List.mem_range.mpr (by rw [hnh4]; exact hi), rfl⟩)

/-- C1 witness: a one-hook trace around one clean child span. -/
theorem hooks_fire_on_trace_lifecycle_witness :
    0 < 1 ∧
    ((∀ kv ∈ (runTrace 1 "t" (Body.span "c" "custom" Body.nop) false).1.graph.nodes,
      (∀ i < 1, Event.node_started i kv.1 ∈
        (runTrace 1 "t" (Body.span "c" "custom" Body.nop) false).1.log) ∧
      (kv.2.status = NodeStatus.completed →
        ∀ i < 1, Event.node_completed i kv.1 ∈
          (runTrace 1 "t" (Body.span "c" "custom" Body.nop) false).1.log) ∧
      (kv.2.status = NodeStatus.failed →
        ∀ i < 1, Event.node_failed i kv.1 ∈
          (runTrace 1 "t" (Body.span "c" "custom" Body.nop) false).1.log)) ∧
    (∃ L, (runTrace 1 "t" (Body.span "c" "custom" Body.nop) false).1.log =
        L ++ [Event.save_attempt (!false)] ++
          (List.range 1).map Event.trace_completed ∧
      (∀ j, Event.trace_completed j ∉ L) ∧
      (∀ i < 1, (match (runTrace 1 "t" (Body.span "c" "custom" Body.nop) false).2 with
          | none => Event.node_completed i rootId
          | some _ => Event.node_failed i rootId) ∈ L))) :=
  ⟨by decide, hooks_fire_on_trace_lifecycle 1 "t" (Body.span "c" "custom" Body.nop)
    false (by decide)⟩

end Nodetracer
